import Mathlib

/-!
# Verification of the longevity-rank analysis engine

A shallow embedding of the Go analysis pipeline of `longevity-ranker`
(`internal/parser/analyzer.go`, `internal/parser/extract.go` and the audit
pipeline `AuditProduct`), together with proofs about it.

Modelling conventions:
* Go strings are modelled as `List Char` (`Str`); all text the engine works
  with is ASCII, so byte positions and rune positions coincide and
  `strings.ToLower` is ASCII lowercasing.
* `float64` values are modelled exactly over `ℚ`.  The engine's arithmetic
  and comparisons are written with the wrappers `fadd`, `fsub`, `fmul`,
  `fdiv`, `flt`, `fle` below; the bridge lemmas `fadd_eq`, `fsub_eq`,
  `fmul_eq`, `fdiv_eq`, `flt_iff`, `fle_iff` prove that each wrapper is
  exactly the corresponding field operation / order relation of `ℚ`.  (The
  wrappers exist only so that concrete runs reduce inside `decide`; all
  theorems are stated through the bridges with the ordinary `ℚ`
  operations.)  The engine never divides by zero on a reachable path, so
  the `x / 0 = 0` convention of `ℚ` is never exercised.
* `strconv.ParseFloat` is modelled for ordinary decimal forms (sign, digits,
  fraction, exponent); hexadecimal, `Inf` and `NaN` forms do not occur in
  price data and are treated as unparsable.
* The package-level regular expressions (`reMg`, `reCount`, `reGrams`,
  `reKg`, `rePack`, `reServing`, plus `reLabelGrams`/`reLabelKg` and the
  audit regex `rePriceFloat`) are implemented with Go `regexp`
  leftmost-match semantics specialised to these concrete patterns: every
  pattern is `(\d+)\s*token` (or a decimal capture), so the capture at a
  match position is the maximal digit run there, and a match exists at a
  position iff the digit run is non-empty and a token of the alternation
  follows the optional whitespace (with a word-boundary check where the
  pattern has `\b`).
* Go `nil` slices/maps and empty ones behave identically in all code paths
  modelled here, so both are the empty list; a `nil` result slice is `[]`.
-/

set_option maxRecDepth 8000

abbrev Str := List Char

/-! ## Exact float64 arithmetic over ℚ -/

/-- `float64` addition, modelled exactly: `a + b` on `ℚ` (see `fadd_eq`). -/
def fadd (a b : ℚ) : ℚ := mkRat (a.num * b.den + b.num * a.den) (a.den * b.den)

/-- `float64` subtraction: `a - b` on `ℚ` (see `fsub_eq`). -/
def fsub (a b : ℚ) : ℚ := mkRat (a.num * b.den - b.num * a.den) (a.den * b.den)

/-- `float64` multiplication: `a * b` on `ℚ` (see `fmul_eq`). -/
def fmul (a b : ℚ) : ℚ := mkRat (a.num * b.num) (a.den * b.den)

/-- `float64` division: `a / b` on `ℚ` (see `fdiv_eq`). -/
def fdiv (a b : ℚ) : ℚ := Rat.divInt (a.num * b.den) (a.den * b.num)

/-- `float64` negation: `-a` on `ℚ` (see `fneg_eq`). -/
def fneg (a : ℚ) : ℚ := mkRat (-a.num) a.den

/-- `float64` strict comparison `a < b` (see `flt_iff`). -/
def flt (a b : ℚ) : Bool := decide (a.num * b.den < b.num * a.den)

/-- `float64` comparison `a ≤ b` (see `fle_iff`). -/
def fle (a b : ℚ) : Bool := decide (a.num * b.den ≤ b.num * a.den)


/-- Value of a natural number as a rational (see `natQ_eq`). -/
def natQ (n : Nat) : ℚ := mkRat n 1


/-! ## Go string primitives on ASCII text -/

/-- ASCII lower-casing of a character, as `strings.ToLower` acts on ASCII. -/
def asciiLower (c : Char) : Char :=
  if 'A' ≤ c ∧ c ≤ 'Z' then Char.ofNat (c.toNat + 32) else c

/-- `strings.ToLower` on ASCII text. -/
def strToLower (s : Str) : Str := s.map asciiLower

/-- Whitespace class of Go regexp `\s`, i.e. `[\t\n\f\r ]`. -/
def isRE2Space (c : Char) : Bool :=
  c == ' ' || c == '\t' || c == '\n' || c == '\x0c' || c == '\r'

/-- ASCII whitespace trimmed by `strings.TrimSpace`. -/
def isGoSpace (c : Char) : Bool :=
  c == ' ' || c == '\t' || c == '\n' || c == '\x0b' || c == '\x0c' || c == '\r'

/-- ASCII decimal digit, Go regexp `\d`. -/
def isDigitChar (c : Char) : Bool := '0' ≤ c && c ≤ '9'

/-- Word character for Go regexp `\b`: `[0-9A-Za-z_]`. -/
def isWordChar (c : Char) : Bool :=
  ('a' ≤ c && c ≤ 'z') || ('A' ≤ c && c ≤ 'Z') || isDigitChar c || c == '_'

/-- `strings.Contains s sub`. -/
def containsSub (s sub : Str) : Bool :=
  match s with
  | [] => sub.isEmpty
  | _ :: rest => sub.isPrefixOf s || containsSub rest sub

/-- `containsAny` from `internal/parser/extract.go`: does `s` contain any of
the given substrings? -/
def containsAny (s : Str) (substrs : List Str) : Bool :=
  substrs.any (fun sub => containsSub s sub)

/-- `strings.EqualFold` on ASCII text. -/
def equalFold (a b : Str) : Bool := strToLower a == strToLower b

/-- `strings.TrimSpace` on ASCII text. -/
def trimSpace (s : Str) : Str :=
  ((s.dropWhile isGoSpace).reverse.dropWhile isGoSpace).reverse

/-- `strings.ReplaceAll handle "-" " "`. -/
def dashToSpace (s : Str) : Str :=
  s.map (fun c => if c == '-' then ' ' else c)

/-- Numeric value of a run of decimal digits (`strconv.ParseFloat` on a
`\d+` capture, which is exact over `ℚ`). -/
def digitsToNat (ds : Str) : Nat :=
  ds.foldl (fun acc c => acc * 10 + (c.toNat - 48)) 0

/-- Value of an integer capture as a rational. -/
def digitsToQ (ds : Str) : ℚ := natQ (digitsToNat ds)

/-- Value of a decimal capture `\d+(\.\d+)?` as a rational, exactly
`ip + fp / 10 ^ |fp|`. -/
def decCapToQ (ip : Str) (fr : Option Str) : ℚ :=
  match fr with
  | none => natQ (digitsToNat ip)
  | some fp => fadd (natQ (digitsToNat ip)) (mkRat (digitsToNat fp) (10 ^ fp.length))

/-! ## The engine's regular expressions -/

/-- Case-insensitive literal-prefix test: does `s` start with the (lowercase)
pattern token `pat`? -/
def lowerPrefixOf : Str → Str → Bool
  | [], _ => true
  | _ :: _, [] => false
  | p :: ps, c :: cs => (p == asciiLower c) && lowerPrefixOf ps cs

/-- After a token, Go regexp `\b` holds iff the next character is not a word
character (every token ends in a word character). -/
def notWordAfter : Str → Bool
  | [] => true
  | c :: _ => !(isWordChar c)

/-- Does one alternation token match at the head of `s`, with a trailing
word-boundary check when the pattern has `\b`? -/
def tokenAt (needBoundary : Bool) (s : Str) (tok : Str) : Bool :=
  lowerPrefixOf tok s && (!needBoundary || notWordAfter (s.drop tok.length))

/-- Match attempt at one position for a pattern `(?i)(\d+)\s*(tok₁|…|tokₙ)`
(optionally followed by `\b`): the capture is the maximal digit run. -/
def matchIntThen (tokens : List Str) (needBoundary : Bool) (s : Str) : Option ℚ :=
  let ds := s.takeWhile isDigitChar
  if ds.isEmpty then none
  else
    let rest := (s.dropWhile isDigitChar).dropWhile isRE2Space
    if tokens.any (tokenAt needBoundary rest) then some (digitsToQ ds) else none

/-- Match attempt at one position for `(?i)(\d+(?:\.\d+)?)\s*(tok₁|…|tokₙ)`
(optionally followed by `\b`); with `tokens = []` this is the bare decimal
capture of `rePriceFloat`. -/
def matchDecThen (tokens : List Str) (needBoundary : Bool) (s : Str) : Option ℚ :=
  let ds := s.takeWhile isDigitChar
  if ds.isEmpty then none
  else
    let rest0 := s.dropWhile isDigitChar
    let fr : Option Str :=
      match rest0 with
      | '.' :: r => let fs := r.takeWhile isDigitChar
                    if fs.isEmpty then none else some fs
      | _ => none
    let rest1 : Str :=
      match fr with
      | some _ => (rest0.drop 1).dropWhile isDigitChar
      | none => rest0
    let rest2 := rest1.dropWhile isRE2Space
    if tokens.isEmpty || tokens.any (tokenAt needBoundary rest2) then
      some (decCapToQ ds fr)
    else none

/-- `FindStringSubmatch`: try the match at every position, leftmost first. -/
def findFirst (m : Str → Option ℚ) : Str → Option ℚ
  | [] => m []
  | c :: rest =>
    match m (c :: rest) with
    | some v => some v
    | none => findFirst m rest

/-- `per\s*serving` literal at the head of `s` (case-insensitive). -/
def perServingHere (s : Str) : Bool :=
  lowerPrefixOf ['p', 'e', 'r'] s &&
    lowerPrefixOf ['s', 'e', 'r', 'v', 'i', 'n', 'g'] ((s.drop 3).dropWhile isRE2Space)

/-- The `.*?per\s*serving` tail of `reServing`: `per serving` must occur with
no newline before it (`.` does not match `\n` in Go regexp). -/
def perServingAfter : Str → Bool
  | [] => false
  | c :: rest => perServingHere (c :: rest) || (c != '\n' && perServingAfter rest)

/-- Match attempt for `reServing = (?i)(\d+)\s*(?:capsules|caps).*?per\s*serving`.
Both alternatives start with `caps`; `.*?` absorbs a following `ules`. -/
def matchServing (s : Str) : Option ℚ :=
  let ds := s.takeWhile isDigitChar
  if ds.isEmpty then none
  else
    let rest := (s.dropWhile isDigitChar).dropWhile isRE2Space
    if lowerPrefixOf ['c', 'a', 'p', 's'] rest && perServingAfter (rest.drop 4) then
      some (digitsToQ ds)
    else none

/-- Tokens of `reGrams = (?i)(\d+)\s*(?:grams?|gms?|g)\b`. -/
def gramsTokens : List Str :=
  [['g', 'r', 'a', 'm', 's'], ['g', 'r', 'a', 'm'], ['g', 'm', 's'], ['g', 'm'], ['g']]

/-- Tokens of `reCount = (?i)(\d+)\s*(?:capsules|caps|servings|tabs|tablets|ct)`. -/
def countTokens : List Str :=
  [['c', 'a', 'p', 's', 'u', 'l', 'e', 's'], ['c', 'a', 'p', 's'],
   ['s', 'e', 'r', 'v', 'i', 'n', 'g', 's'], ['t', 'a', 'b', 's'],
   ['t', 'a', 'b', 'l', 'e', 't', 's'], ['c', 't']]

/-- Tokens of `rePack = (?i)(\d+)\s*(?:Pack|Bottles?)` (`bottle` covers the
optional plural, since there is no boundary requirement). -/
def packTokens : List Str :=
  [['p', 'a', 'c', 'k'], ['b', 'o', 't', 't', 'l', 'e']]

/-- `reMg.FindStringSubmatch`, returning the capture's value. -/
def reMgFind (s : Str) : Option ℚ := findFirst (matchIntThen [['m', 'g']] false) s

/-- `reCount.FindStringSubmatch`, returning the capture's value. -/
def reCountFind (s : Str) : Option ℚ := findFirst (matchIntThen countTokens false) s

/-- `reGrams.FindStringSubmatch`, returning the capture's value. -/
def reGramsFind (s : Str) : Option ℚ := findFirst (matchIntThen gramsTokens true) s

/-- `reKg.FindStringSubmatch`, returning the capture's value. -/
def reKgFind (s : Str) : Option ℚ := findFirst (matchDecThen [['k', 'g']] true) s

/-- `rePack.FindStringSubmatch`, returning the capture's value. -/
def rePackFind (s : Str) : Option ℚ := findFirst (matchIntThen packTokens false) s

/-- `reServing.FindStringSubmatch`, returning the capture's value. -/
def reServingFind (s : Str) : Option ℚ := findFirst matchServing s

/-- `reLabelGrams` — same pattern as `reGrams`, kept separate in the source. -/
def reLabelGramsFind (s : Str) : Option ℚ := reGramsFind s

/-- `reLabelKg` — same pattern as `reKg`, kept separate in the source. -/
def reLabelKgFind (s : Str) : Option ℚ := reKgFind s

/-- `rePriceFloat = (\d+(?:\.\d+)?)` from the audit pipeline. -/
def rePriceFloatFind (s : Str) : Option ℚ := findFirst (matchDecThen [] false) s

/-- `extractFloat` from `internal/parser/extract.go`: first capture of the
pattern in `s`, treated as not found when the value is `≤ 0` (digit captures
always parse, so only the positivity test remains). -/
def extractFloat (find : Str → Option ℚ) (s : Str) : Option ℚ :=
  match find s with
  | some v => if flt 0 v then some v else none
  | none => none

/-- `extractFloatFrom` from `internal/parser/extract.go`: try each source in
order, first success wins. -/
def extractFloatFrom (find : Str → Option ℚ) : List Str → Option ℚ
  | [] => none
  | s :: rest =>
    match extractFloat find s with
    | some v => some v
    | none => extractFloatFrom find rest

/-! ## `strconv.ParseFloat` on decimal price strings -/

/-- `10 ^ e` or `10 ^ (-e)` as a rational, for the exponent part. -/
def pow10 (positive : Bool) (e : Nat) : ℚ :=
  if positive then mkRat (10 ^ e) 1 else mkRat 1 (10 ^ e)

/-- Exponent tail of `strconv.ParseFloat`: digits with an optional sign. -/
def parseExpPart (base : ℚ) (positive : Bool) (d : Str) : Option ℚ :=
  if d.isEmpty || !(d.all isDigitChar) then none
  else some (fmul base (pow10 positive (digitsToNat d)))

/-- Optional exponent sign of `strconv.ParseFloat`. -/
def parseExp (base : ℚ) : Str → Option ℚ
  | '+' :: d => parseExpPart base true d
  | '-' :: d => parseExpPart base false d
  | d => parseExpPart base true d

/-- Unsigned decimal mantissa with optional fraction and exponent. -/
def parseUnsigned (s : Str) : Option ℚ :=
  let ip := s.takeWhile isDigitChar
  let r1 := s.dropWhile isDigitChar
  let fp : Str :=
    match r1 with
    | '.' :: r => r.takeWhile isDigitChar
    | _ => []
  let r2 : Str :=
    match r1 with
    | '.' :: r => r.dropWhile isDigitChar
    | _ => r1
  if ip.isEmpty && fp.isEmpty then none
  else
    let base : ℚ := fadd (natQ (digitsToNat ip)) (mkRat (digitsToNat fp) (10 ^ fp.length))
    match r2 with
    | [] => some base
    | 'e' :: r => parseExp base r
    | 'E' :: r => parseExp base r
    | _ => none

/-- `strconv.ParseFloat` on ordinary decimal price strings (exact over `ℚ`);
hexadecimal, `Inf` and `NaN` forms are treated as unparsable. -/
def parsePrice (s : Str) : Option ℚ :=
  match s with
  | '+' :: r => parseUnsigned r
  | '-' :: r => (parseUnsigned r).map fneg
  | _ => parseUnsigned s

/-! ## String constants of the engine -/

/-- A single space, the separator used when building search strings. -/
def sp : Str := " ".data

def kwFlavor : Str := "flavor".data
def kwIslandCooler : Str := "island cooler".data
def kwCoastalExplosion : Str := "coastal explosion".data
def kwWatermelon : Str := "watermelon".data
def kwBerry : Str := "berry".data
def kwPunch : Str := "punch".data
def kwOrange : Str := "orange".data
def kwLemon : Str := "lemon".data
def kwMango : Str := "mango".data
def kwGrape : Str := "grape".data
def kwApple : Str := "apple".data
def kwBlend : Str := "blend".data
def kwComplex : Str := "complex".data
def kwWith : Str := "with".data
def kwPlus : Str := "+".data
def kwGumm : Str := "gumm".data
def kwChew : Str := "chew".data
def kwBundle : Str := "bundle".data
def kwBlueRaspberry : Str := "blue raspberry".data
def kwFruitPunch : Str := "fruit punch".data
def kwSourWatermelon : Str := "sour watermelon".data
def kwPineappleMango : Str := "pineapple mango".data
def kwMandarinOrange : Str := "mandarin orange".data
def kwShaqsBerryBlast : Str := "shaq\x27s berry blast".data
def kwFrozenLemonade : Str := "frozen lemonade".data

/-- `dirtyKeywords` from `internal/parser/analyzer.go`, in source order:
substrings whose presence makes a regex-extracted mass unreliable. -/
def dirtyKeywords : List Str :=
  [kwFlavor, kwIslandCooler, kwCoastalExplosion, kwWatermelon, kwBerry, kwPunch,
   kwOrange, kwLemon, kwMango, kwGrape, kwApple, kwBlend, kwComplex, kwWith, kwPlus,
   kwGumm, kwChew, kwBundle, kwBlueRaspberry, kwFruitPunch, kwSourWatermelon,
   kwPineappleMango, kwMandarinOrange, kwShaqsBerryBlast, kwFrozenLemonade]

def typeMultiPack : Str := "Multi-Pack".data
def typeHybridBundle : Str := "Hybrid Bundle".data
def typePowder : Str := "Powder".data
def typeGel : Str := "Gel".data
def typeTablets : Str := "Tablets".data
def typeCapsules : Str := "Capsules".data

def kwGel : Str := "gel".data
def kwSoftgel : Str := "softgel".data
def kwTab : Str := "tab".data
def kwPowderLower : Str := "powder".data
def kwLiposomal : Str := "liposomal".data
def kwLipo : Str := "lipo".data
def kwSublingual : Str := "sublingual".data

def labelLipoBonus : Str := "Lipo Bonus".data
def labelSublingual : Str := "Sublingual".data
def labelGelBonus : Str := "Gel Bonus".data
def labelTabletBonus : Str := "Tablet Bonus".data

def defaultTitleStr : Str := "Default Title".data
def subscribeSuffix : Str := " (Subscribe & Save)".data
def dirtyReasonStart : Str := "Detected dirty keyword: ".data
def kwUnflavored : Str := "unflavored".data
def kwServ : Str := "serv".data
def servingsReason : Str :=
  "Detected \x27unflavored\x27 but uses \x27servings\x27 (needs manual math check)".data

/-- `1.1`, the sublingual / gel / tablet bioavailability multiplier. -/
def q11 : ℚ := mkRat 11 10

/-- `1.5`, the liposomal bioavailability multiplier. -/
def q15 : ℚ := mkRat 3 2

/-! ## Data model (`internal/models/types.go` and the rules configuration) -/

/-- `models.Variant`: a purchasable SKU under a product.  The price keeps its
raw decimal-text form, exactly as scraped. -/
structure Variant where
  price : Str
  title : Str
  available : Bool
deriving DecidableEq

/-- `models.Product`: one merchandise listing from one vendor. -/
structure Product where
  title : Str
  context : Str
  handle : Str
  bodyHTML : Str
  imageURL : Str
  variants : List Variant
deriving DecidableEq

/-- `rules.ProductSpec`: manually verified facts overriding the regex
pipeline (fields as consumed by the analyzer; `forceServingMg` is
documentation-only and read by no code path).  Go maps appear as
association lists; a `nil` map and an empty one are both `[]`. -/
structure ProductSpec where
  forceType : Str
  forceActiveGrams : ℚ
  forceServingMg : ℚ
  variantOverrides : List (Str × ℚ)
  variantGrossOverrides : List (Str × ℚ)
deriving DecidableEq

/-- `rules.VendorConfig`: per-vendor policy. -/
structure VendorConfig where
  blocklist : List Str
  variantBlocklist : List Str
  overrides : List (Str × ProductSpec)
  globalSubscriptionDiscount : ℚ
deriving DecidableEq

/-- The zero value of `ProductSpec`, what a missing Go map entry yields. -/
def emptySpec : ProductSpec := ⟨[], 0, 0, [], []⟩

/-- The zero value of `VendorConfig`. -/
def emptyConfig : VendorConfig := ⟨[], [], [], 0⟩

/-- `models.Analysis`: one fully computed output record. -/
structure Analysis where
  vendor : Str
  name : Str
  handle : Str
  price : ℚ
  activeGrams : ℚ
  grossGrams : ℚ
  costPerGram : ℚ
  effectiveCost : ℚ
  multiplier : ℚ
  multiplierLabel : Str
  type : Str
  imageURL : Str
  isSubscription : Bool
  needsReview : Bool
  reviewReason : Str
deriving DecidableEq

/-- Go map indexing with the zero-value default: `m[k]` for a
`map[string]float64` (a `nil` map yields `0`, like a missing key). -/
def lookupQ (m : List (Str × ℚ)) (k : Str) : ℚ :=
  match m.find? (fun e => e.1 == k) with
  | some e => e.2
  | none => 0

/-- `parser.Analyzer`: injected configuration for analysis and audit. -/
structure Analyzer where
  rules : List (Str × VendorConfig)
  supplements : List Str
deriving DecidableEq

/-- `Analyzer.matchesSupplement`: does the identity string contain one of the
configured supplement keywords? -/
def matchesSupplement (a : Analyzer) (identity : Str) : Bool :=
  containsAny identity a.supplements

/-- `Analyzer.vendorConfig`: the vendor's config plus the product-level spec
and whether an override exists for the handle (zero values when absent). -/
def vendorConfig (a : Analyzer) (vendorName handle : Str) :
    VendorConfig × ProductSpec × Bool :=
  match a.rules.find? (fun e => e.1 == vendorName) with
  | none => (emptyConfig, emptySpec, false)
  | some e =>
    match e.2.overrides.find? (fun o => o.1 == handle) with
    | none => (e.2, emptySpec, false)
    | some o => (e.2, o.2, true)

/-! ## The analysis pipeline (`internal/parser/analyzer.go`) -/

/-- Result of `Analyzer.extractMass`: the Go function's three return values. -/
structure MassResult where
  capsuleMass : ℚ
  powderMass : ℚ
  usedOverride : Bool
deriving DecidableEq

/-- `Analyzer.extractMass`: the hybrid catalog/regex mass-extraction
pipeline.  Priority: per-variant override, then `forceActiveGrams`, then the
regex path (grams/kg in the clean search, else mg × count with an optional
serving size, else grams in the broad search). -/
def extractMass (spec : ProductSpec) (hasOverride : Bool)
    (variantTitle cleanSearch broadSearch variantSearch : Str) : MassResult :=
  if hasOverride = true ∧ flt 0 (lookupQ spec.variantOverrides variantTitle) = true then
    ⟨0, lookupQ spec.variantOverrides variantTitle, true⟩
  else if hasOverride = true ∧ flt 0 spec.forceActiveGrams = true then
    ⟨0, spec.forceActiveGrams, true⟩
  else
    match extractFloat reGramsFind cleanSearch with
    | some g => ⟨0, g, false⟩
    | none =>
      match extractFloat reKgFind cleanSearch with
      | some kg => ⟨0, fmul kg 1000, false⟩
      | none =>
        match extractFloat reMgFind broadSearch,
              extractFloatFrom reCountFind [variantSearch, cleanSearch, broadSearch] with
        | some mg, some count =>
          let servingSize := (extractFloat reServingFind broadSearch).getD 1
          ⟨fdiv (fmul (fdiv mg servingSize) count) 1000, 0, false⟩
        | _, _ =>
          match extractFloat reGramsFind broadSearch with
          | some g => ⟨0, g, false⟩
          | none => ⟨0, 0, false⟩

/-- `Analyzer.extractGrossGrams`: the physical label weight — per-variant
gross override first; capsules have no meaningful gross weight; otherwise a
grams/kg pattern over product title + variant title, scaled by the pack
multiplier. -/
def extractGrossGrams (spec : ProductSpec) (hasOverride : Bool)
    (variantTitle productTitle : Str) (isCapsule : Bool) (packMult : ℚ) : ℚ :=
  if hasOverride = true ∧ flt 0 (lookupQ spec.variantGrossOverrides variantTitle) = true then
    lookupQ spec.variantGrossOverrides variantTitle
  else if isCapsule = true then 0
  else
    match extractFloat reLabelGramsFind (productTitle ++ sp ++ variantTitle) with
    | some g => fmul g packMult
    | none =>
      match extractFloat reLabelKgFind (productTitle ++ sp ++ variantTitle) with
      | some kg => fmul (fmul kg 1000) packMult
      | none => 0

/-- `classifyType`: the product-type decision chain. -/
def classifyType (typeSearch : Str) (spec : ProductSpec)
    (hasOverride usedOverride : Bool) (packMult capsuleMass powderMass : ℚ) : Str :=
  if hasOverride = true ∧ spec.forceType ≠ [] then spec.forceType
  else if flt 1 packMult = true then typeMultiPack
  else if usedOverride = false ∧ flt 0 capsuleMass = true ∧ flt 0 powderMass = true then
    typeHybridBundle
  else if usedOverride = false ∧ flt 0 powderMass = true ∧ capsuleMass = 0 then typePowder
  else if containsSub typeSearch kwGel = true ∧ containsSub typeSearch kwSoftgel = false then
    typeGel
  else if containsSub typeSearch kwTab = true then typeTablets
  else if containsSub typeSearch kwPowderLower = true then typePowder
  else typeCapsules

/-- `bioavailabilityMultiplier`: delivery-form bonus and its label. -/
def bioavailabilityMultiplier (typeSearch productType : Str) : ℚ × Str :=
  if containsSub typeSearch kwLiposomal = true ∨ containsSub typeSearch kwLipo = true then
    (q15, labelLipoBonus)
  else if containsSub typeSearch kwSublingual = true then (q11, labelSublingual)
  else if productType = typeGel then (q11, labelGelBonus)
  else if productType = typeTablets then (q11, labelTabletBonus)
  else (1, [])

/-- `buildDisplayName`: product title, variant suffix unless it is empty or
`"Default Title"`, then the vendor-name part is stripped case-insensitively
when the remainder is non-empty. -/
def buildDisplayName (productTitle variantTitle vendorName : Str) : Str :=
  let name :=
    if variantTitle ≠ [] ∧ equalFold variantTitle defaultTitleStr = false then
      productTitle ++ " (".data ++ variantTitle ++ ")".data
    else productTitle
  if vendorName.length > 0 ∧ name.length ≥ vendorName.length ∧
      equalFold (name.take vendorName.length) vendorName = true then
    let trimmed := trimSpace (name.drop vendorName.length)
    if trimmed.length > 0 then trimmed else name
  else name

/-- `triageDirtyData`'s scan loop over the dirty-keyword list. -/
def triageLoop (target : Str) : List Str → Bool × Str
  | [] => (false, [])
  | kw :: rest =>
    if containsSub target (strToLower kw) = false then triageLoop target rest
    else if kw = kwFlavor ∧ containsSub target kwUnflavored = true then
      if containsSub target kwServ = true then (true, servingsReason)
      else triageLoop target rest
    else (true, dirtyReasonStart ++ kw)

/-- `Analyzer.triageDirtyData`: override-sourced mass is trusted and never
flagged; otherwise scan the lowercased display name + handle + title. -/
def triageDirtyData (usedOverride : Bool) (displayName handle title : Str) : Bool × Str :=
  if usedOverride = true then (false, [])
  else triageLoop (strToLower (displayName ++ sp ++ handle ++ sp ++ title)) dirtyKeywords

/-- `buildAnalysis`: a single Analysis record with its computed cost fields
(`costPerGram = price / activeGrams`, `effectiveCost = costPerGram /
multiplier`). -/
def buildAnalysis (vendor name handle imageURL productType : Str)
    (price activeGrams grossGrams multiplier : ℚ) (multiplierLabel : Str)
    (isSubscription needsReview : Bool) (reviewReason : Str) : Analysis :=
  let costPerGram := fdiv price activeGrams
  { vendor := vendor
    name := name
    handle := handle
    price := price
    activeGrams := activeGrams
    grossGrams := grossGrams
    costPerGram := costPerGram
    effectiveCost := fdiv costPerGram multiplier
    multiplier := multiplier
    multiplierLabel := multiplierLabel
    type := productType
    imageURL := imageURL
    isSubscription := isSubscription
    needsReview := needsReview
    reviewReason := reviewReason }

/-- Level-2 search string: product title + variant title. -/
def cleanSearchOf (p : Product) (v : Variant) : Str :=
  p.title ++ sp ++ v.title

/-- Level-3 search string: title, context, variant title, de-dashed handle
and raw description markup. -/
def broadSearchOf (p : Product) (v : Variant) : Str :=
  p.title ++ sp ++ p.context ++ sp ++ v.title ++ sp ++ dashToSpace p.handle ++ sp ++ p.bodyHTML

/-- The pack multiplier of a variant: `rePack` over the variant title first,
then the broad search string, defaulting to `1`. -/
def packMultOf (p : Product) (v : Variant) : ℚ :=
  (extractFloatFrom rePackFind [v.title, broadSearchOf p v]).getD 1

/-- The mass-extraction result for one variant, with the search strings the
analyzer builds for it. -/
def massOf (spec : ProductSpec) (hasOverride : Bool) (p : Product) (v : Variant) : MassResult :=
  extractMass spec hasOverride v.title (cleanSearchOf p v) (broadSearchOf p v) v.title

/-- `baseMass * packMultiplier`: the variant's resolved active grams before
the Pure-Powder Fallback. -/
def activeGrams0Of (spec : ProductSpec) (hasOverride : Bool) (p : Product) (v : Variant) : ℚ :=
  fmul (fadd (massOf spec hasOverride p v).capsuleMass (massOf spec hasOverride p v).powderMass)
    (packMultOf p v)

/-- `isCapsuleProduct`: capsule mass present and no powder mass. -/
def isCapsuleOf (spec : ProductSpec) (hasOverride : Bool) (p : Product) (v : Variant) : Bool :=
  flt 0 (massOf spec hasOverride p v).capsuleMass &&
    ((massOf spec hasOverride p v).powderMass == 0)

/-- The variant's gross grams as first extracted (before the display-only
powder fallback). -/
def grossGrams0Of (spec : ProductSpec) (hasOverride : Bool) (p : Product) (v : Variant) : ℚ :=
  extractGrossGrams spec hasOverride v.title p.title (isCapsuleOf spec hasOverride p v)
    (packMultOf p v)

/-- The triage string of the Pure-Powder Fallback: lowercased product title +
variant title + handle (the SEO context is not part of it). -/
def fallbackTriageOf (p : Product) (v : Variant) : Str :=
  strToLower (p.title ++ sp ++ v.title ++ sp ++ p.handle)

/-- The variant's active grams after the Pure-Powder Fallback: when the mass
came from regex, gross grams were found, the product is not capsule-only and
the fallback's triage string holds no dirty keyword, the whole container is
taken as active ingredient. -/
def activeGramsOf (spec : ProductSpec) (hasOverride : Bool) (p : Product) (v : Variant) : ℚ :=
  if (massOf spec hasOverride p v).usedOverride = false ∧
      flt 0 (grossGrams0Of spec hasOverride p v) = true ∧
      isCapsuleOf spec hasOverride p v = false ∧
      containsAny (fallbackTriageOf p v) dirtyKeywords = false
  then grossGrams0Of spec hasOverride p v
  else activeGrams0Of spec hasOverride p v

/-- The type-classification identity string: lowercased title + variant
title + handle + context. -/
def typeSearchOf (p : Product) (v : Variant) : Str :=
  strToLower (p.title ++ sp ++ v.title ++ sp ++ p.handle ++ sp ++ p.context)

/-- The variant's classified product type. -/
def productTypeOf (spec : ProductSpec) (hasOverride : Bool) (p : Product) (v : Variant) : Str :=
  classifyType (typeSearchOf p v) spec hasOverride (massOf spec hasOverride p v).usedOverride
    (packMultOf p v) (massOf spec hasOverride p v).capsuleMass
    (massOf spec hasOverride p v).powderMass

/-- The variant's bioavailability multiplier and label. -/
def bioOf (spec : ProductSpec) (hasOverride : Bool) (p : Product) (v : Variant) : ℚ × Str :=
  bioavailabilityMultiplier (typeSearchOf p v) (productTypeOf spec hasOverride p v)

/-- The variant's display name. -/
def displayNameOf (vendorName : Str) (p : Product) (v : Variant) : Str :=
  buildDisplayName p.title v.title vendorName

/-- The variant's triage verdict. -/
def triageOf (spec : ProductSpec) (hasOverride : Bool) (vendorName : Str)
    (p : Product) (v : Variant) : Bool × Str :=
  triageDirtyData (massOf spec hasOverride p v).usedOverride (displayNameOf vendorName p v)
    p.handle p.title

/-- The variant's gross grams after the display-only pure-powder fallback
(`grossGrams := activeGrams` for an unflagged Powder with no extracted gross
weight). -/
def grossGramsOf (spec : ProductSpec) (hasOverride : Bool) (vendorName : Str)
    (p : Product) (v : Variant) : ℚ :=
  if productTypeOf spec hasOverride p v = typePowder ∧
      grossGrams0Of spec hasOverride p v = 0 ∧
      (triageOf spec hasOverride vendorName p v).1 = false
  then activeGramsOf spec hasOverride p v
  else grossGrams0Of spec hasOverride p v

/-- The one-time purchase record of a qualifying variant. -/
def oneRecordOf (spec : ProductSpec) (hasOverride : Bool) (vendorName : Str)
    (p : Product) (v : Variant) (price : ℚ) : Analysis :=
  buildAnalysis vendorName (displayNameOf vendorName p v) p.handle p.imageURL
    (productTypeOf spec hasOverride p v) price (activeGramsOf spec hasOverride p v)
    (grossGramsOf spec hasOverride vendorName p v) (bioOf spec hasOverride p v).1
    (bioOf spec hasOverride p v).2 false (triageOf spec hasOverride vendorName p v).1
    (triageOf spec hasOverride vendorName p v).2

/-- The synthetic `Subscribe & Save` record of a qualifying variant. -/
def subRecordOf (cfg : VendorConfig) (spec : ProductSpec) (hasOverride : Bool)
    (vendorName : Str) (p : Product) (v : Variant) (price : ℚ) : Analysis :=
  buildAnalysis vendorName (displayNameOf vendorName p v ++ subscribeSuffix) p.handle p.imageURL
    (productTypeOf spec hasOverride p v)
    (fmul price (fsub 1 cfg.globalSubscriptionDiscount)) (activeGramsOf spec hasOverride p v)
    (grossGramsOf spec hasOverride vendorName p v) (bioOf spec hasOverride p v).1
    (bioOf spec hasOverride p v).2 true (triageOf spec hasOverride vendorName p v).1
    (triageOf spec hasOverride vendorName p v).2

/-- The per-variant loop body of `Analyzer.AnalyzeProduct`: skip unavailable,
blocklisted, unpriced or massless variants; otherwise emit the one-time
record plus the synthetic subscription record when the vendor has a
positive `GlobalSubscriptionDiscount`. -/
def analyzeVariant (cfg : VendorConfig) (spec : ProductSpec) (hasOverride : Bool)
    (vendorName : Str) (p : Product) (v : Variant) : List Analysis :=
  if v.available = false then []
  else if cfg.variantBlocklist ≠ [] ∧
      containsAny (strToLower v.title) cfg.variantBlocklist = true then []
  else
    match parsePrice v.price with
    | none => []
    | some price =>
      if fle price 0 = true then []
      else if fle (activeGrams0Of spec hasOverride p v) 0 = true then []
      else if flt 0 cfg.globalSubscriptionDiscount = true then
        [oneRecordOf spec hasOverride vendorName p v price,
         subRecordOf cfg spec hasOverride vendorName p v price]
      else [oneRecordOf spec hasOverride vendorName p v price]

/-- The identity string gating analysis: lowercased title + context + handle. -/
def identityOf (p : Product) : Str :=
  strToLower (p.title ++ sp ++ p.context ++ sp ++ p.handle)

/-- `Analyzer.AnalyzeProduct`: returns `[]` (Go `nil`) when the product has
no variants or misses the supplement-keyword gate; otherwise evaluates every
variant. -/
def analyzeProduct (a : Analyzer) (vendorName : Str) (p : Product) : List Analysis :=
  if p.variants = [] then []
  else if matchesSupplement a (identityOf p) = false then []
  else
    let c := vendorConfig a vendorName p.handle
    p.variants.flatMap (analyzeVariant c.1 c.2.1 c.2.2 vendorName p)

/-! ## The audit pipeline (`AuditProduct`) -/

/-- `math.MaxFloat64`, the initial best price: `2^1024 - 2^971` exactly. -/
def maxFloat64 : ℚ := natQ (2 ^ 1024 - 2 ^ 971)

def msgNoVariants : Str := "no variants at all".data
def msgNoAvailVariants : Str := "no available variants with a valid price".data
def msgMissingMg : Str := "mg per serving (forceServingMg)".data
def msgMissingCount : Str := "capsule/tablet count".data
def msgMissingGrams : Str := "active grams (forceActiveGrams)".data
def msgPartialData : Str :=
  "data was partially found but activeGrams still computed to 0 (check overrides)".data

/-- `parser.AuditResult`: a diagnostic record for a product the analyzer
rejected. -/
structure AuditResult where
  vendor : Str
  title : Str
  handle : Str
  bestPrice : ℚ
  variantCt : Nat
  mgFound : Bool
  mgValue : ℚ
  countFound : Bool
  countValue : ℚ
  gramsFound : Bool
  gramsValue : ℚ
  kgFound : Bool
  kgValue : ℚ
  missing : List Str
deriving DecidableEq

/-- The all-zero `AuditResult` with the identifying fields filled in. -/
def baseAudit (vendorName : Str) (p : Product) : AuditResult :=
  { vendor := vendorName, title := p.title, handle := p.handle,
    bestPrice := 0, variantCt := 0,
    mgFound := false, mgValue := 0, countFound := false, countValue := 0,
    gramsFound := false, gramsValue := 0, kgFound := false, kgValue := 0,
    missing := [] }

/-- The audit's best-price scan over the variants: lowest
`rePriceFloat`-extractable price of an available variant, and how many
available variants had one. -/
def bestPriceScan (vs : List Variant) : ℚ × Nat :=
  vs.foldl
    (fun acc v =>
      if v.available = false then acc
      else
        match extractFloat rePriceFloatFind v.price with
        | none => acc
        | some price => (if flt price acc.1 = true then price else acc.1, acc.2 + 1))
    (maxFloat64, 0)

/-- The audit's concatenation of all variant titles (each preceded by a
space), appended to its search strings. -/
def joinTitles (vs : List Variant) : Str :=
  vs.foldl (fun acc v => acc ++ sp ++ v.title) []

/-- The diagnosis part of `AuditProduct`: probe the regex extractors over the
audit's tiered search strings and record what was found and what is
missing. -/
def diagnoseGap (vendorName : Str) (p : Product) : AuditResult :=
  let bp := bestPriceScan p.variants
  if bp.2 = 0 then
    { baseAudit vendorName p with
        bestPrice := 0, variantCt := 0, missing := [msgNoAvailVariants] }
  else
    let broadSearch := p.title ++ sp ++ p.context ++ sp ++ dashToSpace p.handle ++ sp ++
      p.bodyHTML ++ joinTitles p.variants
    let cleanSearch := p.title ++ joinTitles p.variants
    let variantSearch := joinTitles p.variants
    let gramsProbe := extractFloatFrom reGramsFind [cleanSearch, broadSearch]
    let kgProbe := extractFloat reKgFind cleanSearch
    let mgProbe := extractFloat reMgFind broadSearch
    let countProbe := extractFloatFrom reCountFind [variantSearch, cleanSearch, broadSearch]
    let hasPowderMass := gramsProbe.isSome || kgProbe.isSome
    let hasCapsuleMass := mgProbe.isSome && countProbe.isSome
    let missing :=
      if !hasPowderMass && !hasCapsuleMass then
        (if mgProbe.isSome then [] else [msgMissingMg]) ++
        (if countProbe.isSome then [] else [msgMissingCount]) ++
        (if gramsProbe.isSome || kgProbe.isSome then [] else [msgMissingGrams])
      else [msgPartialData]
    { vendor := vendorName, title := p.title, handle := p.handle,
      bestPrice := bp.1, variantCt := bp.2,
      mgFound := mgProbe.isSome, mgValue := mgProbe.getD 0,
      countFound := countProbe.isSome, countValue := countProbe.getD 0,
      gramsFound := gramsProbe.isSome, gramsValue := gramsProbe.getD 0,
      kgFound := kgProbe.isSome, kgValue := kgProbe.getD 0,
      missing := missing }

/-- The redundant early-return of `AuditProduct`: when a catalog override
supplies `ForceActiveGrams` and the analyzer succeeds, return `nil` early. -/
def auditEarlyOverrideHit (a : Analyzer) (vendorName : Str) (p : Product) : Bool :=
  match a.rules.find? (fun e => e.1 == vendorName) with
  | none => false
  | some e =>
    match e.2.overrides.find? (fun o => o.1 == p.handle) with
    | none => false
    | some o =>
      flt 0 o.2.forceActiveGrams && !(analyzeProduct a vendorName p).isEmpty

/-- `Analyzer.AuditProduct`: `none` is Go's `nil` (no gap); a product with no
variants at all is reported before the supplement gate is consulted. -/
def auditProduct (a : Analyzer) (vendorName : Str) (p : Product) : Option AuditResult :=
  if p.variants = [] then
    some { baseAudit vendorName p with missing := [msgNoVariants] }
  else if matchesSupplement a (identityOf p) = false then none
  else if auditEarlyOverrideHit a vendorName p = true then none
  else if analyzeProduct a vendorName p ≠ [] then none
  else some (diagnoseGap vendorName p)

/-! ## Claim-side definitions

Renderings of the specification's wording (§4.2 mass priority chain, §4.5
triage scan), to be compared with the functions extracted from the source,
plus the gross-independence side condition for the Pure-Powder Fallback. -/

/-- §4.2 regex tier (a): explicit grams or kilogram pattern in the clean
search string, a kilogram match scaled by 1000. -/
def regexTierA (cleanSearch : Str) : Option ℚ :=
  match extractFloat reGramsFind cleanSearch with
  | some g => some g
  | none => (extractFloat reKgFind cleanSearch).map (fun kg => fmul kg 1000)

/-- §4.2 regex tier (b): a milligram pattern in the broadest string together
with a count pattern found variant-first, combined as
`(mg / servingSize) * count / 1000` with the serving size defaulting to 1. -/
def regexTierB (variantSearch cleanSearch broadSearch : Str) : Option ℚ :=
  match extractFloat reMgFind broadSearch,
        extractFloatFrom reCountFind [variantSearch, cleanSearch, broadSearch] with
  | some mg, some count =>
    some (fdiv (fmul (fdiv mg ((extractFloat reServingFind broadSearch).getD 1)) count) 1000)
  | _, _ => none

/-- §4.2 regex tier (c): a bare grams pattern anywhere in the broadest
search string. -/
def regexTierC (broadSearch : Str) : Option ℚ := extractFloat reGramsFind broadSearch

/-- The §4.2 active-mass priority chain as the specification words it:
positive per-variant override, else positive `forceActiveGrams`, else the
regex tiers (a), (b), (c) in order. -/
def massChainClaim (spec : ProductSpec) (hasOverride : Bool)
    (variantTitle cleanSearch broadSearch variantSearch : Str) : MassResult :=
  if hasOverride = true ∧ flt 0 (lookupQ spec.variantOverrides variantTitle) = true then
    ⟨0, lookupQ spec.variantOverrides variantTitle, true⟩
  else if hasOverride = true ∧ flt 0 spec.forceActiveGrams = true then
    ⟨0, spec.forceActiveGrams, true⟩
  else
    match regexTierA cleanSearch with
    | some g => ⟨0, g, false⟩
    | none =>
      match regexTierB variantSearch cleanSearch broadSearch with
      | some c => ⟨c, 0, false⟩
      | none =>
        match regexTierC broadSearch with
        | some g => ⟨0, g, false⟩
        | none => ⟨0, 0, false⟩

/-- The §4.5 triage scan as the claim words it: the first dirty keyword
contained in the target flags the record and stops the scan, except that a
`"flavor"` hit in text that also holds `"unflavored"` is suppressed and the
scan continues — unless the text also holds `"serv"`, which flags with the
servings-based reason. -/
def triageClaimScan (target : Str) : List Str → Bool × Str
  | [] => (false, [])
  | kw :: rest =>
    if containsSub target kw = true then
      if kw = kwFlavor ∧ containsSub target kwUnflavored = true then
        if containsSub target kwServ = true then (true, servingsReason)
        else triageClaimScan target rest
      else (true, dirtyReasonStart ++ kw)
    else triageClaimScan target rest

/-- The gross-independent ways the Pure-Powder Fallback is disabled for a
variant: override-sourced mass, a capsule-only product, or a dirty keyword
in the fallback's triage string.  None of these consult gross-grams data. -/
def fallbackBlocked (spec : ProductSpec) (hasOverride : Bool) (p : Product) (v : Variant) : Bool :=
  (massOf spec hasOverride p v).usedOverride || isCapsuleOf spec hasOverride p v ||
    containsAny (fallbackTriageOf p v) dirtyKeywords

/-! ## Concrete fixtures

Inputs used by the closed counterexamples and by the witnesses of the
hypothesised theorems. -/

/-- Vendor name used by all fixtures. -/
def vnV : Str := "V".data

/-- An analyzer with no vendor rules that tracks only `nmn`. -/
def fxA : Analyzer := { rules := [], supplements := ["nmn".data] }

/-- An untitled available variant priced `5`. -/
def fxV1 : Variant := { price := "5".data, title := [], available := true }

/-- A pure-powder product: 10 g of NMN at price 5. -/
def fxP1 : Product :=
  { title := "nmn 10 g".data, context := [], handle := "h".data,
    bodyHTML := [], imageURL := [], variants := [fxV1] }

/-- The single record `fxA` produces for `fxP1`. -/
def fx1Out : Analysis :=
  { vendor := vnV, name := "nmn 10 g".data, handle := "h".data,
    price := 5, activeGrams := 10, grossGrams := 10,
    costPerGram := fdiv 5 10, effectiveCost := fdiv (fdiv 5 10) 1,
    multiplier := 1, multiplierLabel := [], type := typePowder,
    imageURL := [], isSubscription := false, needsReview := false, reviewReason := [] }

/-- A vendor config whose only feature is a 10 % subscription discount. -/
def cfgSub : VendorConfig :=
  { blocklist := [], variantBlocklist := [], overrides := [],
    globalSubscriptionDiscount := mkRat 1 10 }

/-- The analyzer for the subscription-vendor fixture. -/
def aSub : Analyzer := { rules := [(vnV, cfgSub)], supplements := ["nmn".data] }

/-- A product spec that differs from the empty one only in a per-variant
gross-grams override for the variant titled `v1`. -/
def spec5b : ProductSpec :=
  { forceType := [], forceActiveGrams := 0, forceServingMg := 0,
    variantOverrides := [], variantGrossOverrides := [("v1".data, 5)] }

/-- Vendor config carrying the empty override spec for handle `h`. -/
def cfg5a : VendorConfig :=
  { blocklist := [], variantBlocklist := [], overrides := [("h".data, emptySpec)],
    globalSubscriptionDiscount := 0 }

/-- Vendor config identical to `cfg5a` except for gross-grams data. -/
def cfg5b : VendorConfig :=
  { blocklist := [], variantBlocklist := [], overrides := [("h".data, spec5b)],
    globalSubscriptionDiscount := 0 }

/-- Analyzer running with `cfg5a`. -/
def a5a : Analyzer := { rules := [(vnV, cfg5a)], supplements := ["nmn".data] }

/-- Analyzer running with `cfg5b`. -/
def a5b : Analyzer := { rules := [(vnV, cfg5b)], supplements := ["nmn".data] }

/-- Variant `v1` priced `10`. -/
def fxV5 : Variant := { price := "10".data, title := "v1".data, available := true }

/-- A 2 g powder product whose handle `h` has an override entry. -/
def fx5P : Product :=
  { title := "nmn 2 g".data, context := [], handle := "h".data,
    bodyHTML := [], imageURL := [], variants := [fxV5] }

/-- Like `fx5P` but with the dirty keyword `berry` in the SEO context. -/
def fx7P : Product :=
  { title := "nmn 2 g".data, context := "berry".data, handle := "h".data,
    bodyHTML := [], imageURL := [], variants := [fxV5] }

/-- A spec forcing 10 active grams (catalog path). -/
def specF : ProductSpec :=
  { forceType := [], forceActiveGrams := 10, forceServingMg := 0,
    variantOverrides := [], variantGrossOverrides := [] }

/-- Vendor config installing `specF` for handle `h`. -/
def cfgF : VendorConfig :=
  { blocklist := [], variantBlocklist := [], overrides := [("h".data, specF)],
    globalSubscriptionDiscount := 0 }

/-- Analyzer running with `cfgF`. -/
def aF : Analyzer := { rules := [(vnV, cfgF)], supplements := ["nmn".data] }

/-- Like `specF` but with an (unused-for-cost) gross override for the
untitled variant. -/
def specF2 : ProductSpec :=
  { forceType := [], forceActiveGrams := 10, forceServingMg := 0,
    variantOverrides := [], variantGrossOverrides := [([], 7)] }

/-- Vendor config installing `specF2` for handle `h`. -/
def cfgF2 : VendorConfig :=
  { blocklist := [], variantBlocklist := [], overrides := [("h".data, specF2)],
    globalSubscriptionDiscount := 0 }

/-- Analyzer running with `cfgF2`. -/
def aF2 : Analyzer := { rules := [(vnV, cfgF2)], supplements := ["nmn".data] }

/-- A product whose title holds the dirty keyword `berry`. -/
def pBerry : Product :=
  { title := "nmn berry".data, context := [], handle := "h".data,
    bodyHTML := [], imageURL := [], variants := [fxV1] }

/-- A spec whose `forceType` is literally `Hybrid Bundle`. -/
def specH : ProductSpec :=
  { forceType := typeHybridBundle, forceActiveGrams := 10, forceServingMg := 0,
    variantOverrides := [], variantGrossOverrides := [] }

/-- Vendor config installing `specH` for handle `h`. -/
def cfgH : VendorConfig :=
  { blocklist := [], variantBlocklist := [], overrides := [("h".data, specH)],
    globalSubscriptionDiscount := 0 }

/-- Analyzer running with `cfgH`. -/
def aH : Analyzer := { rules := [(vnV, cfgH)], supplements := ["nmn".data] }

/-- A variant-less product that misses the supplement gate. -/
def pNoVar : Product :=
  { title := "soap".data, context := [], handle := "x".data,
    bodyHTML := [], imageURL := [], variants := [] }

/-- A gate-passing product with no extractable mass. -/
def pGap : Product :=
  { title := "nmn".data, context := [], handle := "h".data,
    bodyHTML := [], imageURL := [], variants := [fxV1] }

/-- A gate-missing product that nevertheless has a priced variant and
extractable mass text. -/
def pSoap : Product :=
  { title := "soap 10 g".data, context := [], handle := "x".data,
    bodyHTML := [], imageURL := [], variants := [fxV1] }

/-- The record `aF` produces for `pBerry` (catalog-path mass). -/
def fxC4Out : Analysis := oneRecordOf specF true vnV pBerry fxV1 5

/-- The record `a5b` produces for `fx7P` (fallback fired despite the dirty
context). -/
def fx7Out : Analysis := oneRecordOf spec5b true vnV fx7P fxV5 10

/-- The record `aH` produces for `pBerry` (forced `Hybrid Bundle` type). -/
def fxHOut : Analysis := oneRecordOf specH true vnV pBerry fxV1 5

/-! ## Bridge lemmas: the float wrappers are the field operations of ℚ -/

theorem fadd_eq (a b : ℚ) : fadd a b = a + b := (Rat.add_def' a b).symm

theorem fsub_eq (a b : ℚ) : fsub a b = a - b := (Rat.sub_def' a b).symm

theorem fmul_eq (a b : ℚ) : fmul a b = a * b := by
  rw [fmul, Rat.mul_def, Rat.normalize_eq_mkRat]

theorem fneg_eq (a : ℚ) : fneg a = -a := by
  rw [fneg, ← Rat.neg_mkRat, Rat.mkRat_self]

theorem fdiv_eq (a b : ℚ) : fdiv a b = a / b := by
  rcases eq_or_ne b 0 with rfl | hb
  · simp [fdiv]
  · have hbn : b.num ≠ 0 := by
      simpa [Rat.num_eq_zero] using hb
    have han : (a.den : ℤ) ≠ 0 := Int.natCast_ne_zero.2 a.den_nz
    rw [fdiv, Rat.div_def, Rat.inv_def]
    conv_rhs => rw [← Rat.divInt_self a]
    rw [Rat.divInt_mul_divInt _ _ han hbn]

theorem flt_iff (a b : ℚ) : flt a b = true ↔ a < b := by
  simp [flt, Rat.lt_def]

theorem fle_iff (a b : ℚ) : fle a b = true ↔ a ≤ b := by
  simp [fle, Rat.le_def]

theorem natQ_eq (n : Nat) : natQ n = (n : ℚ) := by
  rw [natQ, Rat.mkRat_one]
  rfl

/-! ## Helper lemmas about the pipeline -/

/-- Membership in an `analyzeProduct` result comes from some variant of the
product, analysed under the vendor's looked-up configuration. -/
theorem mem_analyzeProduct {a : Analyzer} {vn : Str} {p : Product} {x : Analysis}
    (hx : x ∈ analyzeProduct a vn p) :
    ∃ v ∈ p.variants,
      x ∈ analyzeVariant (vendorConfig a vn p.handle).1 (vendorConfig a vn p.handle).2.1
        (vendorConfig a vn p.handle).2.2 vn p v := by
  unfold analyzeProduct at hx
  split at hx
  · simp at hx
  · split at hx
    · simp at hx
    · simpa using List.mem_flatMap.mp hx

/-- Membership in an `analyzeVariant` result: the variant parsed to a
positive price, its pre-fallback mass survived the positivity gate, and the
record is the one-time record or (for a discounted vendor) the subscription
record. -/
theorem mem_analyzeVariant {cfg : VendorConfig} {spec : ProductSpec} {ho : Bool}
    {vn : Str} {p : Product} {v : Variant} {x : Analysis}
    (hx : x ∈ analyzeVariant cfg spec ho vn p v) :
    ∃ price, parsePrice v.price = some price ∧ fle price 0 = false ∧
      fle (activeGrams0Of spec ho p v) 0 = false ∧
      (x = oneRecordOf spec ho vn p v price ∨
        (flt 0 cfg.globalSubscriptionDiscount = true ∧
          x = subRecordOf cfg spec ho vn p v price)) := by
  unfold analyzeVariant at hx
  split at hx
  · simp at hx
  · split at hx
    · simp at hx
    · split at hx
      · simp at hx
      · rename_i price hprice
        split at hx
        · simp at hx
        · rename_i hp0
          split at hx
          · simp at hx
          · rename_i hag
            refine ⟨price, hprice, Bool.not_eq_true _ ▸ eq_false_of_ne_true hp0,
              Bool.not_eq_true _ ▸ eq_false_of_ne_true hag, ?_⟩
            split at hx
            · rename_i hd
              rcases List.mem_cons.mp hx with h1 | h2
              · exact Or.inl h1
              · exact Or.inr ⟨hd, by simpa using h2⟩
            · exact Or.inl (by simpa using hx)

/-- After the Pure-Powder Fallback, a variant that passed the mass gate has
strictly positive active grams. -/
theorem activeGrams_pos {spec : ProductSpec} {ho : Bool} {p : Product} {v : Variant}
    (hag : fle (activeGrams0Of spec ho p v) 0 = false) :
    0 < activeGramsOf spec ho p v := by
  have h0 : 0 < activeGrams0Of spec ho p v := by
    by_contra hcon
    rw [not_lt] at hcon
    rw [(fle_iff _ _).mpr hcon] at hag
    cases hag
  unfold activeGramsOf
  split
  · rename_i hcond
    exact (flt_iff _ _).mp hcond.2.1
  · exact h0

/-! ## The claims -/

/-- C1: every Analysis record emitted by `analyzeProduct` has strictly
positive `activeGrams`, `costPerGram` equal to `price / activeGrams` exactly
(the same division `buildAnalysis` performs), and `effectiveCost` equal to
`costPerGram / multiplier` — including records whose `activeGrams` was
rewritten by the Pure-Powder Fallback. -/
theorem c1_cost_invariants (a : Analyzer) (vn : Str) (p : Product) (x : Analysis)
    (hx : x ∈ analyzeProduct a vn p) :
    0 < x.activeGrams ∧ x.costPerGram = x.price / x.activeGrams ∧
      x.effectiveCost = x.costPerGram / x.multiplier := by
  obtain ⟨v, hv, hxv⟩ := mem_analyzeProduct hx
  obtain ⟨price, hpr, hp0, hag, hcase⟩ := mem_analyzeVariant hxv
  have hA := activeGrams_pos hag
  rcases hcase with rfl | ⟨hd, rfl⟩ <;>
    simp only [oneRecordOf, subRecordOf, buildAnalysis, fdiv_eq] <;>
    exact ⟨hA, trivial, trivial⟩

/-- Witness for C1 at a concrete pure-powder product. -/
theorem c1_cost_invariants_witness :
    fx1Out ∈ analyzeProduct fxA vnV fxP1 ∧
      (0 < fx1Out.activeGrams ∧ fx1Out.costPerGram = fx1Out.price / fx1Out.activeGrams ∧
        fx1Out.effectiveCost = fx1Out.costPerGram / fx1Out.multiplier) :=
  ⟨by decide, c1_cost_invariants fxA vnV fxP1 fx1Out (by decide)⟩

/-- C10: a product whose lowercased title + context + handle contains none
of the analyzer's configured supplement keywords yields no Analysis records,
regardless of its variants, prices, or any overrides configured for its
handle. -/
theorem c10_gate_rejects (a : Analyzer) (vn : Str) (p : Product)
    (h : containsAny (identityOf p) a.supplements = false) :
    analyzeProduct a vn p = [] := by
  unfold analyzeProduct
  split
  · rfl
  · split
    · rfl
    · rename_i hgate
      exact absurd h (by simpa [matchesSupplement] using hgate)

/-- Witness for C10: a priced, mass-bearing product whose text never
mentions a tracked supplement. -/
theorem c10_gate_rejects_witness :
    containsAny (identityOf pSoap) fxA.supplements = false ∧
      analyzeProduct fxA vnV pSoap = [] :=
  ⟨by decide, c10_gate_rejects fxA vnV pSoap (by decide)⟩

/-- C4: a record whose active mass was resolved from an override (a variant
override or `forceActiveGrams`) is never flagged: `needsReview` is false and
`reviewReason` empty, regardless of any dirty keywords in the product text;
equivalently, a flagged record's mass came from the regex pipeline. -/
theorem c4_override_never_flagged (cfg : VendorConfig) (spec : ProductSpec) (ho : Bool)
    (vn : Str) (p : Product) (v : Variant) (x : Analysis)
    (hover : (massOf spec ho p v).usedOverride = true)
    (hx : x ∈ analyzeVariant cfg spec ho vn p v) :
    x.needsReview = false ∧ x.reviewReason = [] := by
  obtain ⟨price, _, _, _, hcase⟩ := mem_analyzeVariant hx
  have htri : triageOf spec ho vn p v = (false, []) := by
    unfold triageOf triageDirtyData
    rw [if_pos hover]
  rcases hcase with rfl | ⟨_, rfl⟩ <;>
    simp [oneRecordOf, subRecordOf, buildAnalysis, htri]

/-- Witness for C4: a catalog-path product whose title holds the dirty
keyword `berry` is still unflagged. -/
theorem c4_override_never_flagged_witness :
    (massOf specF true pBerry fxV1).usedOverride = true ∧
      fxC4Out ∈ analyzeVariant cfgF specF true vnV pBerry fxV1 ∧
      (fxC4Out.needsReview = false ∧ fxC4Out.reviewReason = []) :=
  ⟨by decide, by decide,
    c4_override_never_flagged cfgF specF true vnV pBerry fxV1 fxC4Out (by decide) (by decide)⟩

/-- `classifyType` only answers `Hybrid Bundle` from a forced type, given
that capsule and powder mass are never simultaneously positive. -/
theorem classifyType_hybrid {ts : Str} {spec : ProductSpec} {ho uo : Bool}
    {pm cm pwm : ℚ} (hcp : cm = 0 ∨ pwm = 0)
    (h : classifyType ts spec ho uo pm cm pwm = typeHybridBundle) :
    ho = true ∧ spec.forceType = typeHybridBundle := by
  unfold classifyType at h
  split at h
  · rename_i hcond
    exact ⟨hcond.1, h⟩
  · split at h
    · exact absurd h (by decide)
    · split at h
      · rename_i hcond
        exfalso
        rcases hcp with h0 | h0
        · rw [h0] at hcond
          exact absurd ((flt_iff 0 0).mp hcond.2.1) (lt_irrefl 0)
        · rw [h0] at hcond
          exact absurd ((flt_iff 0 0).mp hcond.2.2) (lt_irrefl 0)
      · split at h
        · exact absurd h (by decide)
        · split at h
          · exact absurd h (by decide)
          · split at h
            · exact absurd h (by decide)
            · split at h
              · exact absurd h (by decide)
              · exact absurd h (by decide)

/-- C9: `extractMass` never returns both a positive capsule mass and a
positive powder mass (one of the two is always zero), and consequently no
emitted Analysis has type `Hybrid Bundle` unless the handle's override
literally forces that string — classifier rule 3 is unreachable. -/
theorem c9_hybrid_unreachable :
    (∀ (spec : ProductSpec) (ho : Bool) (vt cs bs vs : Str),
      (extractMass spec ho vt cs bs vs).capsuleMass = 0 ∨
        (extractMass spec ho vt cs bs vs).powderMass = 0) ∧
    (∀ (a : Analyzer) (vn : Str) (p : Product) (x : Analysis),
      x ∈ analyzeProduct a vn p → x.type = typeHybridBundle →
      (vendorConfig a vn p.handle).2.2 = true ∧
        (vendorConfig a vn p.handle).2.1.forceType = typeHybridBundle) := by
  have hsplit : ∀ (spec : ProductSpec) (ho : Bool) (vt cs bs vs : Str),
      (extractMass spec ho vt cs bs vs).capsuleMass = 0 ∨
        (extractMass spec ho vt cs bs vs).powderMass = 0 := by
    intro spec ho vt cs bs vs
    unfold extractMass
    split
    · exact Or.inl rfl
    · split
      · exact Or.inl rfl
      · split
        · exact Or.inl rfl
        · split
          · exact Or.inl rfl
          · split
            · exact Or.inr rfl
            · split
              · exact Or.inl rfl
              · exact Or.inl rfl
  refine ⟨hsplit, ?_⟩
  intro a vn p x hx htype
  obtain ⟨v, hv, hxv⟩ := mem_analyzeProduct hx
  obtain ⟨price, _, _, _, hcase⟩ := mem_analyzeVariant hxv
  have hxt : productTypeOf (vendorConfig a vn p.handle).2.1 (vendorConfig a vn p.handle).2.2
      p v = typeHybridBundle := by
    rcases hcase with rfl | ⟨_, rfl⟩ <;>
      simpa [oneRecordOf, subRecordOf, buildAnalysis] using htype
  exact classifyType_hybrid (hsplit _ _ _ _ _ _) hxt

/-- Witness for C9: a forced `Hybrid Bundle` record and its override. -/
theorem c9_hybrid_unreachable_witness :
    ((extractMass emptySpec false [] [] [] []).capsuleMass = 0 ∨
      (extractMass emptySpec false [] [] [] []).powderMass = 0) ∧
    (fxHOut ∈ analyzeProduct aH vnV pBerry ∧ fxHOut.type = typeHybridBundle ∧
      ((vendorConfig aH vnV pBerry.handle).2.2 = true ∧
        (vendorConfig aH vnV pBerry.handle).2.1.forceType = typeHybridBundle)) :=
  ⟨c9_hybrid_unreachable.1 emptySpec false [] [] [] [],
   by decide, by decide,
   c9_hybrid_unreachable.2 aH vnV pBerry fxHOut (by decide) (by decide)⟩

/-- C2: active-gram resolution follows the strict priority chain of §4.2 —
`extractMass` coincides with the chain `massChainClaim` written from the
specification's words (positive variant override first, else positive
`forceActiveGrams`, else regex tiers (a) grams/kg in the clean string with
kg scaled by 1000, (b) mg in the broad string with a variant-first count and
a `per serving` serving size defaulting to 1 combined as
`(mg / servingSize) * count / 1000`, (c) bare grams in the broad string) —
and a variant for which no tier yields a positive value produces no
Analysis. -/
theorem c2_mass_priority_chain :
    (∀ (spec : ProductSpec) (ho : Bool) (vt cs bs vs : Str),
      extractMass spec ho vt cs bs vs = massChainClaim spec ho vt cs bs vs) ∧
    (∀ (cfg : VendorConfig) (spec : ProductSpec) (ho : Bool) (vn : Str)
        (p : Product) (v : Variant),
      (massOf spec ho p v).capsuleMass = 0 → (massOf spec ho p v).powderMass = 0 →
      analyzeVariant cfg spec ho vn p v = []) := by
  constructor
  · intro spec ho vt cs bs vs
    unfold extractMass massChainClaim regexTierA regexTierB regexTierC
    split
    · rfl
    · split
      · rfl
      · cases hg : extractFloat reGramsFind cs with
        | some g => simp [hg]
        | none =>
          cases hk : extractFloat reKgFind cs with
          | some k => simp [hg, hk]
          | none =>
            cases hmg : extractFloat reMgFind bs with
            | some mg =>
              cases hc : extractFloatFrom reCountFind [vs, cs, bs] with
              | some c => simp [hg, hk, hmg, hc]
              | none =>
                cases hgb : extractFloat reGramsFind bs <;> simp [hg, hk, hmg, hc, hgb]
            | none =>
              cases hc : extractFloatFrom reCountFind [vs, cs, bs] <;>
                cases hgb : extractFloat reGramsFind bs <;> simp [hg, hk, hmg, hc, hgb]
  · intro cfg spec ho vn p v h1 h2
    have hA : activeGrams0Of spec ho p v = 0 := by
      unfold activeGrams0Of
      rw [h1, h2, fadd_eq, fmul_eq]
      simp
    unfold analyzeVariant
    split
    · rfl
    · split
      · rfl
      · split
        · rfl
        · split
          · rfl
          · rw [hA, if_pos (by decide : fle (0 : ℚ) 0 = true)]

/-- Witness for C2 at concrete inputs: the chain equality on empty inputs,
and a gate-passing product with no extractable mass that yields nothing. -/
theorem c2_mass_priority_chain_witness :
    extractMass emptySpec false [] [] [] [] = massChainClaim emptySpec false [] [] [] [] ∧
    ((massOf emptySpec false pGap fxV1).capsuleMass = 0 ∧
      (massOf emptySpec false pGap fxV1).powderMass = 0 ∧
      analyzeVariant emptyConfig emptySpec false vnV pGap fxV1 = []) :=
  ⟨c2_mass_priority_chain.1 emptySpec false [] [] [] [],
   by decide, by decide,
   c2_mass_priority_chain.2 emptyConfig emptySpec false vnV pGap fxV1 (by decide) (by decide)⟩

/-- Over a list of already-lowercase keywords, the source's triage loop and
the claim-side scan agree. -/
theorem triageLoop_eq_claimScan (target : Str) :
    ∀ kws : List Str, kws.all (fun kw => strToLower kw == kw) = true →
      triageLoop target kws = triageClaimScan target kws := by
  intro kws
  induction kws with
  | nil => intro _; rfl
  | cons kw rest ih =>
    intro hall
    rw [List.all_cons, Bool.and_eq_true] at hall
    have hkw : strToLower kw = kw := by simpa using hall.1
    have hrest := ih hall.2
    unfold triageLoop triageClaimScan
    rw [hkw]
    by_cases hc : containsSub target kw = true
    · simp only [hc, Bool.true_eq_false, if_false, if_true, hrest]
    · have hc' : containsSub target kw = false := eq_false_of_ne_true hc
      simp only [hc', if_true, if_false, hrest]
      simp [hrest]

/-- C6: with regex-sourced mass, the triage scan behaves exactly as §4.5
words it — the first dirty keyword contained in the lowercased display
name + handle + product title flags the record with reason
`Detected dirty keyword: <word>` and stops; a `flavor` hit in text that also
contains `unflavored` is suppressed and scanning continues, unless the text
also contains `serv`, which flags with the servings-based reason; no hit
leaves the record unflagged. -/
theorem c6_triage_scan_spec (dn h t : Str) :
    triageDirtyData false dn h t =
      triageClaimScan (strToLower (dn ++ sp ++ h ++ sp ++ t)) dirtyKeywords := by
  unfold triageDirtyData
  rw [if_neg (by simp)]
  exact triageLoop_eq_claimScan _ dirtyKeywords (by decide)

/-- Shape of a variant's output: nothing, or one/two records built from its
parsed price, the pair being emitted exactly when the vendor's subscription
discount is positive. -/
theorem analyzeVariant_cases (cfg : VendorConfig) (spec : ProductSpec) (ho : Bool)
    (vn : Str) (p : Product) (v : Variant) :
    analyzeVariant cfg spec ho vn p v = [] ∨
    ∃ price, analyzeVariant cfg spec ho vn p v =
      if flt 0 cfg.globalSubscriptionDiscount = true then
        [oneRecordOf spec ho vn p v price, subRecordOf cfg spec ho vn p v price]
      else [oneRecordOf spec ho vn p v price] := by
  unfold analyzeVariant
  split
  · exact Or.inl rfl
  · split
    · exact Or.inl rfl
    · split
      · exact Or.inl rfl
      · rename_i price _
        split
        · exact Or.inl rfl
        · split
          · exact Or.inl rfl
          · exact Or.inr ⟨price, rfl⟩

/-- C3 (amended): for a vendor with a positive subscription discount, every
qualifying variant yields exactly two records — one-time then subscription —
with `price' = price * (1 - d)`, the `Subscribe & Save` name suffix and the
subscription flag set, and identical activeGrams, grossGrams, type,
multiplier and all remaining fields except the price-derived cost fields. -/
theorem c3_subscription_pairing (cfg : VendorConfig) (spec : ProductSpec) (ho : Bool)
    (vn : Str) (p : Product) (v : Variant)
    (hd : 0 < cfg.globalSubscriptionDiscount)
    (hne : analyzeVariant cfg spec ho vn p v ≠ []) :
    ∃ a1 a2, analyzeVariant cfg spec ho vn p v = [a1, a2] ∧
      a2.price = a1.price * (1 - cfg.globalSubscriptionDiscount) ∧
      a1.isSubscription = false ∧ a2.isSubscription = true ∧
      a2.name = a1.name ++ subscribeSuffix ∧
      a2.activeGrams = a1.activeGrams ∧ a2.grossGrams = a1.grossGrams ∧
      a2.type = a1.type ∧ a2.multiplier = a1.multiplier ∧
      a2.vendor = a1.vendor ∧ a2.handle = a1.handle ∧
      a2.imageURL = a1.imageURL ∧ a2.multiplierLabel = a1.multiplierLabel ∧
      a2.needsReview = a1.needsReview ∧ a2.reviewReason = a1.reviewReason := by
  rcases analyzeVariant_cases cfg spec ho vn p v with hnil | ⟨price, heq⟩
  · exact absurd hnil hne
  · refine ⟨oneRecordOf spec ho vn p v price, subRecordOf cfg spec ho vn p v price,
      by rw [heq, if_pos ((flt_iff _ _).mpr hd)],
      ?_, ?_, ?_, ?_, ?_, ?_, ?_, ?_, ?_, ?_, ?_, ?_, ?_, ?_⟩ <;>
      simp [oneRecordOf, subRecordOf, buildAnalysis, fmul_eq, fsub_eq]

/-- Witness for C3 at the 10 % discount vendor fixture. -/
theorem c3_subscription_pairing_witness :
    flt 0 cfgSub.globalSubscriptionDiscount = true ∧
      analyzeVariant cfgSub emptySpec false vnV fxP1 fxV1 ≠ [] ∧
      (∃ a1 a2, analyzeVariant cfgSub emptySpec false vnV fxP1 fxV1 = [a1, a2] ∧
        a2.price = a1.price * (1 - cfgSub.globalSubscriptionDiscount) ∧
        a1.isSubscription = false ∧ a2.isSubscription = true ∧
        a2.name = a1.name ++ subscribeSuffix ∧
        a2.activeGrams = a1.activeGrams ∧ a2.grossGrams = a1.grossGrams ∧
        a2.type = a1.type ∧ a2.multiplier = a1.multiplier ∧
        a2.vendor = a1.vendor ∧ a2.handle = a1.handle ∧
        a2.imageURL = a1.imageURL ∧ a2.multiplierLabel = a1.multiplierLabel ∧
        a2.needsReview = a1.needsReview ∧ a2.reviewReason = a1.reviewReason) :=
  ⟨by decide, by decide,
   c3_subscription_pairing cfgSub emptySpec false vnV fxP1 fxV1
     ((flt_iff _ _).mp (by decide)) (by decide)⟩

/-- Counterexample for C3 as stated: the paired records of a discounted
vendor are not identical apart from price, name suffix and the subscription
flag — the derived cost fields differ as well. -/
theorem c3_counterexample_cost_fields :
    flt 0 cfgSub.globalSubscriptionDiscount = true ∧
    (analyzeProduct aSub vnV fxP1).length = 2 ∧
    (analyzeProduct aSub vnV fxP1).map (fun x => (x.isSubscription, x.costPerGram)) =
      [(false, mkRat 1 2), (true, mkRat 9 20)] ∧
    (analyzeProduct aSub vnV fxP1).map (fun x => x.effectiveCost) =
      [mkRat 1 2, mkRat 9 20] ∧
    mkRat 1 2 ≠ mkRat 9 20 :=
  ⟨by decide, by decide, by decide, by decide, by decide⟩

/-- C7 (amended): the Pure-Powder Fallback rewrites `activeGrams` to the
extracted gross grams exactly when the mass came from regex (not an
override), gross grams were found, the product is not capsule-only, and the
lowercased product title + variant title + handle — the SEO context is not
part of this string — contains none of the dirty keywords. -/
theorem c7_pure_powder_condition (cfg : VendorConfig) (spec : ProductSpec) (ho : Bool)
    (vn : Str) (p : Product) (v : Variant) (x : Analysis)
    (hx : x ∈ analyzeVariant cfg spec ho vn p v) :
    x.activeGrams =
      if (massOf spec ho p v).usedOverride = false ∧
          0 < grossGrams0Of spec ho p v ∧
          isCapsuleOf spec ho p v = false ∧
          containsAny (strToLower (p.title ++ sp ++ v.title ++ sp ++ p.handle))
            dirtyKeywords = false
      then grossGrams0Of spec ho p v
      else activeGrams0Of spec ho p v := by
  obtain ⟨price, _, _, _, hcase⟩ := mem_analyzeVariant hx
  have hcond :
      ((massOf spec ho p v).usedOverride = false ∧
        flt 0 (grossGrams0Of spec ho p v) = true ∧
        isCapsuleOf spec ho p v = false ∧
        containsAny (fallbackTriageOf p v) dirtyKeywords = false) ↔
      ((massOf spec ho p v).usedOverride = false ∧
        0 < grossGrams0Of spec ho p v ∧
        isCapsuleOf spec ho p v = false ∧
        containsAny (strToLower (p.title ++ sp ++ v.title ++ sp ++ p.handle))
          dirtyKeywords = false) := by
    unfold fallbackTriageOf
    rw [flt_iff]
  have hag : activeGramsOf spec ho p v =
      if (massOf spec ho p v).usedOverride = false ∧
          0 < grossGrams0Of spec ho p v ∧
          isCapsuleOf spec ho p v = false ∧
          containsAny (strToLower (p.title ++ sp ++ v.title ++ sp ++ p.handle))
            dirtyKeywords = false
      then grossGrams0Of spec ho p v
      else activeGrams0Of spec ho p v := by
    unfold activeGramsOf
    exact if_congr hcond rfl rfl
  rcases hcase with rfl | ⟨_, rfl⟩ <;>
    simpa [oneRecordOf, subRecordOf, buildAnalysis] using hag

/-- Witness for C7 on the dirty-context product: the fallback fired there. -/
theorem c7_pure_powder_condition_witness :
    fx7Out ∈ analyzeVariant cfg5b spec5b true vnV fx7P fxV5 ∧
      fx7Out.activeGrams =
        (if (massOf spec5b true fx7P fxV5).usedOverride = false ∧
            0 < grossGrams0Of spec5b true fx7P fxV5 ∧
            isCapsuleOf spec5b true fx7P fxV5 = false ∧
            containsAny (strToLower (fx7P.title ++ sp ++ fxV5.title ++ sp ++ fx7P.handle))
              dirtyKeywords = false
        then grossGrams0Of spec5b true fx7P fxV5
        else activeGrams0Of spec5b true fx7P fxV5) :=
  ⟨by decide,
   c7_pure_powder_condition cfg5b spec5b true vnV fx7P fxV5 fx7Out (by decide)⟩

/-- Counterexample for C7 as stated: with the dirty keyword `berry` only in
the SEO context, the claim's identity string (title + variant + handle +
context) does contain a dirty keyword, so on the claim's reading the
fallback must not fire — yet the emitted `activeGrams` is the overridden
gross weight 5, not the regex mass 2: the code's scan excludes the
context. -/
theorem c7_counterexample_context_excluded :
    (analyzeProduct a5b vnV fx7P).map (fun x => x.activeGrams) = [5] ∧
    containsAny
      (strToLower (fx7P.title ++ sp ++ fxV5.title ++ sp ++ fx7P.handle ++ sp ++ fx7P.context))
      dirtyKeywords = true ∧
    massOf spec5b true fx7P fxV5 = ⟨0, 2, false⟩ ∧
    activeGrams0Of spec5b true fx7P fxV5 = 2 ∧
    grossGrams0Of spec5b true fx7P fxV5 = 5 ∧
    (5 : ℚ) ≠ 2 :=
  ⟨by decide, by decide, by decide, by decide, by decide, by decide⟩

/-- The audit's early override branch only returns `nil` when the analyzer
in fact succeeded. -/
theorem earlyHit_ne_nil {a : Analyzer} {vn : Str} {p : Product}
    (h : auditEarlyOverrideHit a vn p = true) :
    analyzeProduct a vn p ≠ [] := by
  unfold auditEarlyOverrideHit at h
  split at h
  · cases h
  · split at h
    · cases h
    · intro hnil
      rw [Bool.and_eq_true] at h
      have h2 := h.2
      rw [hnil] at h2
      simp at h2

/-- C8 (amended): `AuditProduct` returns a non-nil result exactly when the
product has no variants at all (reported before the supplement gate is
consulted), or it passes the supplement-keyword gate while `AnalyzeProduct`
produces no Analysis for it. -/
theorem c8_audit_iff (a : Analyzer) (vn : Str) (p : Product) :
    (auditProduct a vn p).isSome = true ↔
      (p.variants = [] ∨
        (matchesSupplement a (identityOf p) = true ∧ analyzeProduct a vn p = [])) := by
  unfold auditProduct
  split
  · rename_i hv
    simp [hv]
  · rename_i hv
    split
    · rename_i hg
      simp [hv, hg]
    · rename_i hg
      have hg' : matchesSupplement a (identityOf p) = true := by
        simpa using hg
      split
      · rename_i hearly
        have hne := earlyHit_ne_nil hearly
        simp [hv, hg', hne]
      · split
        · rename_i hne
          simp [hv, hg', hne]
        · rename_i hne
          have : analyzeProduct a vn p = [] := by
            by_contra hcon
            exact hne hcon
          simp [hv, hg', this]

/-- Counterexample for C8 as stated: a variant-less product that fails the
supplement gate still gets a non-nil AuditResult, although the claim says a
product failing the gate yields nil. -/
theorem c8_counterexample_no_variants :
    (auditProduct fxA vnV pNoVar).isSome = true ∧
    matchesSupplement fxA (identityOf pNoVar) = false ∧
    analyzeProduct fxA vnV pNoVar = [] :=
  ⟨by decide, by decide, by decide⟩

/-- `extractMass` reads only `variantOverrides` and `forceActiveGrams` from
the spec — in particular never the gross-grams data. -/
theorem massOf_congr {s1 s2 : ProductSpec} (ho : Bool) (p : Product) (v : Variant)
    (hfa : s1.forceActiveGrams = s2.forceActiveGrams)
    (hvo : s1.variantOverrides = s2.variantOverrides) :
    massOf s1 ho p v = massOf s2 ho p v := by
  unfold massOf extractMass
  rw [hfa, hvo]

/-- When the Pure-Powder Fallback is blocked for gross-independent reasons,
the emitted active grams are the pre-fallback ones. -/
theorem activeGramsOf_blocked {spec : ProductSpec} {ho : Bool} {p : Product} {v : Variant}
    (hb : fallbackBlocked spec ho p v = true) :
    activeGramsOf spec ho p v = activeGrams0Of spec ho p v := by
  unfold activeGramsOf
  rw [if_neg]
  intro hcond
  unfold fallbackBlocked at hb
  rcases hcond with ⟨huo, _, hcap, hdirty⟩
  rw [huo, hcap, hdirty] at hb
  simp at hb

/-- Per-variant congruence: under configurations equal except for gross-grams
data, and with the Pure-Powder Fallback blocked gross-independently, the
cost fields of the variant's records agree. -/
theorem analyzeVariant_cost_congr (cfg1 cfg2 : VendorConfig) (s1 s2 : ProductSpec)
    (ho : Bool) (vn : Str) (p : Product) (v : Variant)
    (hvb : cfg1.variantBlocklist = cfg2.variantBlocklist)
    (hd : cfg1.globalSubscriptionDiscount = cfg2.globalSubscriptionDiscount)
    (hft : s1.forceType = s2.forceType)
    (hfa : s1.forceActiveGrams = s2.forceActiveGrams)
    (hvo : s1.variantOverrides = s2.variantOverrides)
    (hb : fallbackBlocked s1 ho p v = true) :
    (analyzeVariant cfg1 s1 ho vn p v).map (fun x => (x.costPerGram, x.effectiveCost)) =
      (analyzeVariant cfg2 s2 ho vn p v).map (fun x => (x.costPerGram, x.effectiveCost)) := by
  have hm := massOf_congr ho p v hfa hvo
  have ha0 : activeGrams0Of s1 ho p v = activeGrams0Of s2 ho p v := by
    unfold activeGrams0Of
    rw [hm]
  have hcap : isCapsuleOf s1 ho p v = isCapsuleOf s2 ho p v := by
    unfold isCapsuleOf
    rw [hm]
  have hb2 : fallbackBlocked s2 ho p v = true := by
    unfold fallbackBlocked at hb ⊢
    rw [← hm, ← hcap]
    exact hb
  have hag : activeGramsOf s1 ho p v = activeGramsOf s2 ho p v := by
    rw [activeGramsOf_blocked hb, activeGramsOf_blocked hb2, ha0]
  have hpt : productTypeOf s1 ho p v = productTypeOf s2 ho p v := by
    unfold productTypeOf classifyType
    rw [hm, hft]
  have hbio : bioOf s1 ho p v = bioOf s2 ho p v := by
    unfold bioOf
    rw [hpt]
  unfold analyzeVariant
  rw [hvb, ha0, hd]
  split
  · rfl
  · split
    · rfl
    · split
      · rfl
      · split
        · rfl
        · split
          · rfl
          · split
            · simp [oneRecordOf, subRecordOf, buildAnalysis, hag, hbio, hd]
            · simp [oneRecordOf, subRecordOf, buildAnalysis, hag, hbio]

/-- Mapping a function over equal-after-`map` flat-maps. -/
theorem flatMap_map_congr {α β γ : Type} (l : List α) (f g : α → List β) (h : β → γ)
    (hfg : ∀ x ∈ l, (f x).map h = (g x).map h) :
    (l.flatMap f).map h = (l.flatMap g).map h := by
  induction l with
  | nil => rfl
  | cons a as ih =>
    simp only [List.flatMap_cons, List.map_append]
    rw [hfg a (List.mem_cons_self a as), ih (fun x hx => hfg x (List.mem_cons_of_mem a hx))]

/-- C5 (amended): gross grams are display-only as long as the Pure-Powder
Fallback cannot fire: for two runs whose configurations differ only in
gross-grams data (`variantGrossOverrides`), with the fallback blocked
gross-independently for every variant (override-sourced mass, a capsule-only
product, or a dirty keyword in the fallback's triage string), every emitted
Analysis has identical `costPerGram` and `effectiveCost`.  (The fallback
itself, `activeGrams := grossGrams`, is the one code path where gross data
does reach the cost math — see the counterexample.) -/
theorem c5_gross_cost_independence (a1 a2 : Analyzer) (vn : Str) (p : Product)
    (hsup : a1.supplements = a2.supplements)
    (hvb : (vendorConfig a1 vn p.handle).1.variantBlocklist =
      (vendorConfig a2 vn p.handle).1.variantBlocklist)
    (hd : (vendorConfig a1 vn p.handle).1.globalSubscriptionDiscount =
      (vendorConfig a2 vn p.handle).1.globalSubscriptionDiscount)
    (hho : (vendorConfig a1 vn p.handle).2.2 = (vendorConfig a2 vn p.handle).2.2)
    (hft : (vendorConfig a1 vn p.handle).2.1.forceType =
      (vendorConfig a2 vn p.handle).2.1.forceType)
    (hfa : (vendorConfig a1 vn p.handle).2.1.forceActiveGrams =
      (vendorConfig a2 vn p.handle).2.1.forceActiveGrams)
    (hvo : (vendorConfig a1 vn p.handle).2.1.variantOverrides =
      (vendorConfig a2 vn p.handle).2.1.variantOverrides)
    (hblock : ∀ v ∈ p.variants,
      fallbackBlocked (vendorConfig a1 vn p.handle).2.1
        (vendorConfig a1 vn p.handle).2.2 p v = true) :
    (analyzeProduct a1 vn p).map (fun x => (x.costPerGram, x.effectiveCost)) =
      (analyzeProduct a2 vn p).map (fun x => (x.costPerGram, x.effectiveCost)) := by
  have hgate : matchesSupplement a1 (identityOf p) = matchesSupplement a2 (identityOf p) := by
    unfold matchesSupplement
    rw [hsup]
  unfold analyzeProduct
  dsimp only
  rw [hgate, ← hho]
  split
  · rfl
  · split
    · rfl
    · exact flatMap_map_congr _ _ _ _
        (fun v hv => analyzeVariant_cost_congr _ _ _ _ _ _ _ _ hvb hd hft hfa hvo (hblock v hv))

/-- Witness for C5: two catalog-path runs differing only in a per-variant
gross override produce the same cost fields. -/
theorem c5_gross_cost_independence_witness :
    (∀ v ∈ pBerry.variants,
      fallbackBlocked (vendorConfig aF vnV pBerry.handle).2.1
        (vendorConfig aF vnV pBerry.handle).2.2 pBerry v = true) ∧
    (analyzeProduct aF vnV pBerry).map (fun x => (x.costPerGram, x.effectiveCost)) =
      (analyzeProduct aF2 vnV pBerry).map (fun x => (x.costPerGram, x.effectiveCost)) :=
  ⟨by decide,
   c5_gross_cost_independence aF aF2 vnV pBerry (by decide) (by decide) (by decide)
     (by decide) (by decide) (by decide) (by decide) (by decide)⟩

/-- Counterexample for C5 as stated: two runs that differ only in
gross-grams data (`variantGrossOverrides`) emit different `costPerGram` and
`effectiveCost` — the Pure-Powder Fallback feeds the gross weight into the
cost denominator. -/
theorem c5_counterexample_gross_affects_cost :
    spec5b.forceType = emptySpec.forceType ∧
    spec5b.forceActiveGrams = emptySpec.forceActiveGrams ∧
    spec5b.forceServingMg = emptySpec.forceServingMg ∧
    spec5b.variantOverrides = emptySpec.variantOverrides ∧
    a5a.supplements = a5b.supplements ∧
    cfg5a.variantBlocklist = cfg5b.variantBlocklist ∧
    cfg5a.globalSubscriptionDiscount = cfg5b.globalSubscriptionDiscount ∧
    (analyzeProduct a5a vnV fx5P).map (fun x => x.costPerGram) = [5] ∧
    (analyzeProduct a5b vnV fx5P).map (fun x => x.costPerGram) = [2] ∧
    (analyzeProduct a5a vnV fx5P).map (fun x => x.effectiveCost) = [5] ∧
    (analyzeProduct a5b vnV fx5P).map (fun x => x.effectiveCost) = [2] ∧
    (5 : ℚ) ≠ 2 :=
  ⟨by decide, by decide, by decide, by decide, by decide, by decide, by decide,
   by decide, by decide, by decide, by decide, by decide⟩
